import Mathlib

/-!
Shallow embedding of the name-change service of the wise-old-man server
(file `server/src/api/modules/names/name.service.ts`) together with the parts
of the data model the service manipulates.  Players, name-change requests and
the four kinds of history rows are modelled as plain Lean structures, the
backing store as lists of rows, and every service operation as a pure function
from the store state to the next store state paired with the operation's
outcome (`Except` models a thrown error, and the returned state models what
the store holds after the call, so a rolled-back transaction returns the
pre-call state).  Collaborators that live outside the embedded module (player
lookup, the snapshot service, the hiscores client, the efficiency engine) are
modelled from the spec where noted in their doc comments.
-/

namespace NameService

/-- Identity row of the Identity Store: one tracked player.  The source's
`Player` model has many more presentational columns; only the ones the
name-change service reads or writes (`id`, `username`, `displayName`) are
modelled. -/
structure Player where
  id : Nat
  username : String
  displayName : String
deriving DecidableEq

/-- Status of a name-change request, `NameChangeStatus` in the source. -/
inductive NameChangeStatus where
  | PENDING
  | APPROVED
  | DENIED
deriving DecidableEq

/-- A rename request, the source's `NameChange` model: donor name `oldName`,
recipient name `newName`, lifecycle `status` and resolution timestamp. -/
structure NameChange where
  id : Nat
  playerId : Nat
  oldName : String
  newName : String
  status : NameChangeStatus
  resolvedAt : Option Nat
deriving DecidableEq

/-- Snapshot row: a point-in-time stat capture owned by one player.  The
metric columns are opaque to the name-change service and collapsed into one
payload field.  The source row also carries its own surrogate identifier,
which the snapshot transfer drops on re-insertion (`omit(..., 'id')`); since
the natural key is (playerId, createdAt), the surrogate is not modelled. -/
structure Snapshot where
  playerId : Nat
  createdAt : Nat
  metrics : Nat
deriving DecidableEq

/-- Best-ever record row, one per (playerId, metric, period) at rest. -/
structure Record where
  id : Nat
  playerId : Nat
  metric : String
  period : String
  value : Int
  updatedAt : Nat
deriving DecidableEq

/-- Competition participation row, natural key (playerId, eventId). -/
structure Participation where
  playerId : Nat
  eventId : Nat
  createdAt : Nat
deriving DecidableEq

/-- Group membership row; the source model declares a unique index on
(playerId, groupId), which is its natural key. -/
structure Membership where
  playerId : Nat
  groupId : Nat
  role : String
  createdAt : Nat
deriving DecidableEq

/-- Error kinds thrown by the service.  `badRequest`, `notFound` and
`serverError` embed the source's `BadRequestError`, `NotFoundError` and
`ServerError` classes together with their message; `nullAccess` embeds the
JavaScript `TypeError` raised by dereferencing a null value, which no source
class catches.  Message strings keep the source wording minus interpolated
names and apostrophes. -/
inductive ApiError where
  | badRequest (msg : String)
  | notFound (msg : String)
  | serverError (msg : String)
  | nullAccess (msg : String)
deriving DecidableEq

/-- The backing store: one list per table, plus the admin password (the
source's `env.ADMIN_PASSWORD`) and the next surrogate id handed out by
`NameChange.create`. -/
structure DB where
  players : List Player
  nameChanges : List NameChange
  snapshots : List Snapshot
  records : List Record
  participations : List Participation
  memberships : List Membership
  adminPassword : String
  nextId : Nat
deriving DecidableEq

/-- Modelled from the spec: `playerService.standardize` lives outside the
embedded module and the spec treats name normalization as out of scope,
specifying the rename step as setting the donor's current name to the
recipient name directly; accordingly normalization is the identity. -/
def standardize (name : String) : String := name

/-- Modelled from the spec: Identity lookup `findByName(name) → Identity |
absent` (the source's `playerService.find`), returning the tracked player
whose current name is `name`. -/
def find (db : DB) (name : String) : Option Player :=
  db.players.find? (fun p => p.username == name)

/-- Modelled from the spec: the Transition Resolver
(`snapshotService.findLatest`) returns the given player's most recent
snapshot, or none when the player has no snapshots. -/
def findLatest (db : DB) (pid : Nat) : Option Snapshot :=
  (db.snapshots.filter (fun s => s.playerId == pid)).foldl
    (fun acc s =>
      match acc with
      | none => some s
      | some m => if m.createdAt < s.createdAt then some s else some m)
    none

/-- Modelled from the spec: `snapshotService.findFirstSince(id, date)` returns
the earliest snapshot of the given player created at or after `date`. -/
def findFirstSince (db : DB) (pid : Nat) (lo : Nat) : Option Snapshot :=
  (db.snapshots.filter (fun s => s.playerId == pid && lo ≤ s.createdAt)).foldl
    (fun acc s =>
      match acc with
      | none => some s
      | some m => if s.createdAt < m.createdAt then some s else some m)
    none

/-- Comparison of a row timestamp against the optional transition bound.  The
source builds a sequelize `Op.gte` filter whose bound may be undefined when
the donor has no snapshots; the design notes flag that case as ambiguous, and
no theorem below depends on the choice made here (a missing bound selects
every row). -/
def dateGte (bound : Option Nat) (t : Nat) : Bool :=
  match bound with
  | none => true
  | some b => decide (b ≤ t)

/-- Embedding of `Model.bulkCreate(rows, { ignoreDuplicates: true })`: each
row of the batch is appended unless a row with the same natural key is
already present (including rows inserted earlier in the same batch, matching
ON CONFLICT DO NOTHING). -/
def insertIgnore {α : Type} {κ : Type} [DecidableEq κ] (key : α → κ)
    (tbl : List α) (rows : List α) : List α :=
  rows.foldl
    (fun acc r => if acc.any (fun t => decide (key t = key r)) then acc else acc ++ [r])
    tbl

/-- Natural key of a snapshot row.  Modelled from the spec: the snapshot
model is outside the embedded module, and the spec specifies the
insert-ignoring-conflicts policy as keyed on (identityId, createdAt). -/
def snapshotKey (s : Snapshot) : Nat × Nat := (s.playerId, s.createdAt)

/-- Natural key of a participation row.  Modelled from the spec: the
participation model is outside the embedded module, and the spec specifies
duplicates as ignored on (identityId, eventId). -/
def participationKey (p : Participation) : Nat × Nat := (p.playerId, p.eventId)

/-- Natural key of a membership row, the unique (playerId, groupId) index
declared by the source's `Membership` model. -/
def membershipKey (m : Membership) : Nat × Nat := (m.playerId, m.groupId)

/-- Embedding of `transferSnapshots`: fetch the recipient's snapshots matching
the created-after filter, re-own them to `targetId` (dropping the surrogate
id) and bulk-insert ignoring duplicates. -/
def transferSnapshots (db : DB) (newId : Nat) (bound : Option Nat) (targetId : Nat) : DB :=
  let newSnapshots := db.snapshots.filter (fun s => s.playerId == newId && dateGte bound s.createdAt)
  let movedSnapshots := newSnapshots.map (fun s => { s with playerId := targetId })
  { db with snapshots := insertIgnore snapshotKey db.snapshots movedSnapshots }

/-- Embedding of `transferParticipations`. -/
def transferParticipations (db : DB) (newId : Nat) (bound : Option Nat) (targetId : Nat) : DB :=
  let newParticipations :=
    db.participations.filter (fun p => p.playerId == newId && dateGte bound p.createdAt)
  let movedParticipations := newParticipations.map (fun p => { p with playerId := targetId })
  { db with participations := insertIgnore participationKey db.participations movedParticipations }

/-- Embedding of `transferMemberships`. -/
def transferMemberships (db : DB) (newId : Nat) (bound : Option Nat) (targetId : Nat) : DB :=
  let newMemberships :=
    db.memberships.filter (fun m => m.playerId == newId && dateGte bound m.createdAt)
  let movedMemberships := newMemberships.map (fun m => { m with playerId := targetId })
  { db with memberships := insertIgnore membershipKey db.memberships movedMemberships }

/-- One pending update of `transferRecords`: the donor record to overwrite and
the recipient's higher value, applied as `record.update({ value })`, i.e. a
write to the row with that record's id. -/
def applyUpdate (e : Record × Int) (r : Record) : Record :=
  if r.id = e.1.id then { r with value := e.2 } else r

/-- Embedding of `transferRecords`: fetch the donor's records and the
recipient's records matching the updated-after filter; for each recipient
record whose donor equivalent (same metric and period) exists with a smaller
value, overwrite the donor record's value.  Recipient records without a donor
equivalent are skipped, and ties or smaller recipient values are no-ops. -/
def transferRecords (db : DB) (newId : Nat) (bound : Option Nat) (targetId : Nat) : DB :=
  let oldRecords := db.records.filter (fun r => r.playerId == targetId)
  let newRecords := db.records.filter (fun r => r.playerId == newId && dateGte bound r.updatedAt)
  let outdated : List (Record × Int) :=
    newRecords.filterMap (fun n =>
      match oldRecords.find? (fun r => r.metric == n.metric && r.period == n.period) with
      | some oldEquivalent =>
          if oldEquivalent.value < n.value then some (oldEquivalent, n.value) else none
      | none => none)
  { db with records := outdated.foldl (fun recs e => recs.map (applyUpdate e)) db.records }

/-- Embedding of `newPlayer.destroy({ transaction })`: the recipient identity
row is deleted.  Foreign-key cascade side effects on history tables are not
relied upon by any theorem below and are not modelled. -/
def destroyPlayer (db : DB) (pid : Nat) : DB :=
  { db with players := db.players.filter (fun p => p.id != pid) }

/-- Embedding of the rename step: `oldPlayer.username = standardizedName;
oldPlayer.displayName = standardizedName; oldPlayer.save()`.  `save` issues an
update keyed on the instance's id, a no-op when no row with that id remains. -/
def renamePlayer (db : DB) (pid : Nat) (name : String) : DB :=
  { db with players := db.players.map (fun p =>
      if p.id = pid then { p with username := name, displayName := name } else p) }

/-- The sequence of store writes performed inside the merge transaction, in
source order: when the recipient exists, the four history transfers and the
destruction of the recipient identity, and in every case the rename of the
donor identity. -/
def mergeSteps (oldP : Player) (newP : Option Player) (transitionDate : Option Nat)
    (standardizedName : String) : List (DB → DB) :=
  (match newP with
   | some np =>
      [fun d => transferRecords d np.id transitionDate oldP.id,
       fun d => transferSnapshots d np.id transitionDate oldP.id,
       fun d => transferMemberships d np.id transitionDate oldP.id,
       fun d => transferParticipations d np.id transitionDate oldP.id,
       fun d => destroyPlayer d np.id]
   | none => []) ++ [fun d => renamePlayer d oldP.id standardizedName]

/-- Runs the transaction's steps on the working state.  Every step is an
awaited store operation that may reject; the fault oracle `inj` injects such a
rejection before step `k` (the index one past the last step stands for the
commit itself).  The first failure aborts the run. -/
def runTx (inj : Nat → Option ApiError) : Nat → List (DB → DB) → DB → Except ApiError DB
  | k, [], db =>
      match inj k with
      | some e => .error e
      | none => .ok db
  | k, f :: fs, db =>
      match inj k with
      | some e => .error e
      | none => runTx inj (k + 1) fs (f db)

/-- Embedding of `transferData`: resolve the transition date from the donor's
latest snapshot, run all merge steps inside one transaction, and either commit
the working state or roll back — the store keeps its pre-call state — and
re-raise the error. -/
def transferData (inj : Nat → Option ApiError) (db : DB) (oldP : Player)
    (newP : Option Player) (newName : String) : DB × Except ApiError Unit :=
  let transitionDate := (findLatest db oldP.id).map (fun s => s.createdAt)
  let standardizedName := standardize newName
  match runTx inj 0 (mergeSteps oldP newP transitionDate standardizedName) db with
  | .ok db1 => (db1, .ok ())
  | .error e => (db, .error e)

/-- Embedding of `submit`: require the donor name to be tracked, reject a
duplicate pending request for the same pair, otherwise create one new pending
request. -/
def submit (db : DB) (oldName newName : String) : DB × Except ApiError NameChange :=
  match find db oldName with
  | none => (db, .error (.badRequest "Player is not tracked yet."))
  | some oldPlayer =>
    match db.nameChanges.find? (fun nc =>
        nc.oldName == oldName && nc.newName == newName
          && decide (nc.status = NameChangeStatus.PENDING)) with
    | some _ => (db, .error (.badRequest "There is already a similar pending name change request."))
    | none =>
        let nameChange : NameChange :=
          { id := db.nextId, playerId := oldPlayer.id, oldName := oldName, newName := newName,
            status := NameChangeStatus.PENDING, resolvedAt := none }
        ({ db with nameChanges := db.nameChanges ++ [nameChange], nextId := db.nextId + 1 },
          .ok nameChange)

/-- Replaces the stored row of a name-change request, `nameChange.save()`. -/
def saveNameChange (db : DB) (nc : NameChange) : DB :=
  { db with nameChanges := db.nameChanges.map (fun c => if c.id = nc.id then nc else c) }

/-- Embedding of `deny`: look the request up by id, require it to be pending,
check the admin password, and mark it denied. -/
def deny (db : DB) (id : Nat) (adminPassword : String) : DB × Except ApiError NameChange :=
  match db.nameChanges.find? (fun c => c.id == id) with
  | none => (db, .error (.notFound "Name change id was not found."))
  | some nameChange =>
    if nameChange.status ≠ NameChangeStatus.PENDING then
      (db, .error (.badRequest "Name change status must be PENDING"))
    else if adminPassword ≠ db.adminPassword then
      (db, .error (.badRequest "Incorrect password."))
    else
      let nc2 := { nameChange with status := NameChangeStatus.DENIED }
      (saveNameChange db nc2, .ok nc2)

/-- Embedding of `approve`: the same three guards as `deny`, then resolve the
donor (fatal if it vanished) and the possibly-absent recipient, transfer the
data, and on success mark the request approved with a resolution date. -/
def approve (inj : Nat → Option ApiError) (db : DB) (id : Nat) (adminPassword : String)
    (now : Nat) : DB × Except ApiError NameChange :=
  match db.nameChanges.find? (fun c => c.id == id) with
  | none => (db, .error (.notFound "Name change id was not found."))
  | some nameChange =>
    if nameChange.status ≠ NameChangeStatus.PENDING then
      (db, .error (.badRequest "Name change status must be PENDING"))
    else if adminPassword ≠ db.adminPassword then
      (db, .error (.badRequest "Incorrect password."))
    else
      match find db nameChange.oldName with
      | none => (db, .error (.serverError "Old Player cannot be found in the database anymore."))
      | some oldPlayer =>
        match transferData inj db oldPlayer (find db nameChange.newName) nameChange.newName with
        | (_, .error e) => (db, .error e)
        | (db1, .ok _) =>
            let nc2 := { nameChange with
                          status := NameChangeStatus.APPROVED, resolvedAt := some now }
            (saveNameChange db1 nc2, .ok nc2)

/-- Outcome of one call to the external hiscores client: a payload, a
non-fatal miss (any error other than `ServerError`, swallowed by the source),
or a fatal `ServerError` (re-thrown by the source). -/
inductive HiscoresOutcome where
  | hit (stats : Nat)
  | miss
  | serverDown
deriving DecidableEq

/-- Modelled from the spec: the external collaborators consumed by the
comparison reporter — the hiscores client, snapshot synthesis from hiscores
data, and the efficiency engine's delta and regression checks. -/
structure Collab where
  getHiscoresData : String → HiscoresOutcome
  fromRS : Nat → Snapshot
  calculateEHPDiff : Snapshot → Snapshot → Int
  calculateEHBDiff : Snapshot → Snapshot → Int
  hasNegativeGains : Snapshot → Snapshot → Bool

/-- Shape of the comparison returned by `getDetails` (presentational
formatting of the snapshots is omitted; the derived hours field is the
millisecond difference rescaled and is not separately modelled). -/
structure NameChangeDetails where
  nameChange : NameChange
  isNewOnHiscores : Bool
  isOldOnHiscores : Bool
  isNewTracked : Bool
  negativeGains : Bool
  timeDiff : Int
  ehpDiff : Int
  ehbDiff : Int
  oldStats : Snapshot
  newStats : Option Snapshot
deriving DecidableEq

/-- Embedding of `getDetails`: look the request up, fetch hiscores for both
names (re-throwing only fatal failures), then dereference the donor player and
its latest snapshot with no presence guard — when either is absent the
JavaScript source throws a TypeError, embedded as `nullAccess`.  The boolean
paired with `newStats` records whether it is a persisted snapshot (so its
`createdAt` is meaningful) or one synthesized from live hiscores data (whose
`createdAt` is still unset, making the source fall back to the current time). -/
def getDetails (collab : Collab) (now : Nat) (db : DB) (id : Nat) :
    DB × Except ApiError NameChangeDetails :=
  match db.nameChanges.find? (fun c => c.id == id) with
  | none => (db, .error (.notFound "Name change id was not found."))
  | some nameChange =>
    match collab.getHiscoresData nameChange.newName with
    | .serverDown => (db, .error (.serverError "Failed to load the hiscores."))
    | outNew =>
      match collab.getHiscoresData nameChange.oldName with
      | .serverDown => (db, .error (.serverError "Failed to load the hiscores."))
      | outOld =>
        let newHiscores : Option Nat := match outNew with | .hit s => some s | _ => none
        let oldHiscores : Option Nat := match outOld with | .hit s => some s | _ => none
        match find db nameChange.oldName with
        | none => (db, .error (.nullAccess "oldPlayer.id"))
        | some oldPlayer =>
          let newPlayer := find db nameChange.newName
          match findLatest db oldPlayer.id with
          | none => (db, .error (.nullAccess "oldStats.createdAt"))
          | some oldStats =>
            let fromHiscores : Option (Snapshot × Bool) :=
              newHiscores.map (fun h => (collab.fromRS h, false))
            let newStats : Option (Snapshot × Bool) :=
              match newPlayer with
              | some np =>
                  match findFirstSince db np.id oldStats.createdAt with
                  | some postChangeSnapshot => some (postChangeSnapshot, true)
                  | none => fromHiscores
              | none => fromHiscores
            let afterDate : Nat :=
              match newStats with
              | some (s, true) => s.createdAt
              | _ => now
            let timeDiff : Int := (afterDate : Int) - (oldStats.createdAt : Int)
            let ehpDiff : Int :=
              match newStats with
              | some (s, _) => collab.calculateEHPDiff oldStats s
              | none => 0
            let ehbDiff : Int :=
              match newStats with
              | some (s, _) => collab.calculateEHBDiff oldStats s
              | none => 0
            let negativeGains : Bool :=
              match newStats with
              | some (s, _) => collab.hasNegativeGains oldStats s
              | none => false
            (db, .ok
              { nameChange := nameChange,
                isNewOnHiscores := newHiscores.isSome,
                isOldOnHiscores := oldHiscores.isSome,
                isNewTracked := newPlayer.isSome,
                negativeGains := negativeGains,
                timeDiff := timeDiff,
                ehpDiff := ehpDiff,
                ehbDiff := ehbDiff,
                oldStats := oldStats,
                newStats := newStats.map Prod.fst })

/-- One client-visible operation of the request lifecycle, for reasoning about
arbitrary operation sequences. -/
inductive Op where
  | submitOp (oldName newName : String)
  | denyOp (id : Nat) (adminPassword : String)
  | approveOp (inj : Nat → Option ApiError) (id : Nat) (adminPassword : String) (now : Nat)

/-- The store state after serving one operation. -/
def applyOp (db : DB) (op : Op) : DB :=
  match op with
  | .submitOp o n => (submit db o n).1
  | .denyOp id pw => (deny db id pw).1
  | .approveOp inj id pw now => (approve inj db id pw now).1

/-- A fault oracle that never injects a failure. -/
def noInj : Nat → Option ApiError := fun _ => none

deriving instance DecidableEq for Except

/-- Discriminates the error class the claim C5 names. -/
def isNotFound : Except ApiError NameChange → Bool
  | .error (.notFound _) => true
  | _ => false

def exDb5 : DB :=
  { players := [], nameChanges := [], snapshots := [], records := [],
    participations := [], memberships := [], adminPassword := "x", nextId := 1 }

def exDb5b : DB :=
  { players := [⟨1, "a", "a"⟩], nameChanges := [], snapshots := [], records := [],
    participations := [], memberships := [], adminPassword := "x", nextId := 5 }

def exDb6 : DB :=
  { players := [], snapshots := [], records := [], participations := [], memberships := [],
    nameChanges := [⟨1, 1, "a", "b", NameChangeStatus.PENDING, none⟩,
                    ⟨2, 1, "c", "d", NameChangeStatus.DENIED, none⟩],
    adminPassword := "pw", nextId := 3 }

def exDb4 : DB :=
  { players := [⟨1, "a", "a"⟩, ⟨2, "b", "b"⟩],
    nameChanges := [⟨1, 1, "a", "b", NameChangeStatus.PENDING, none⟩],
    snapshots := [⟨1, 10, 100⟩, ⟨2, 20, 200⟩],
    records := [], participations := [], memberships := [],
    adminPassword := "pw", nextId := 2 }

def injFail : Nat → Option ApiError := fun k =>
  if k = 2 then some (.serverError "store failure") else none

def exDbSame : DB :=
  { players := [⟨1, "a", "a"⟩],
    nameChanges := [⟨1, 1, "a", "a", NameChangeStatus.PENDING, none⟩],
    snapshots := [], records := [], participations := [], memberships := [],
    adminPassword := "pw", nextId := 2 }

def exDbA : DB :=
  { players := [⟨1, "a", "a"⟩, ⟨2, "b", "b"⟩],
    nameChanges := [⟨1, 1, "a", "b", NameChangeStatus.PENDING, none⟩],
    snapshots := [⟨1, 10, 100⟩, ⟨2, 20, 200⟩],
    records := [], participations := [], memberships := [],
    adminPassword := "pw", nextId := 2 }

def exDbA' : DB := (approve noInj exDbA 1 "pw" 7).1

def exNcA : NameChange :=
  { id := 1, playerId := 1, oldName := "a", newName := "b",
    status := NameChangeStatus.APPROVED, resolvedAt := some 7 }

/-- Pointwise form of the record-update pass: the whole-table folds of
`transferRecords` equal a single map applying every pending update to each
row. -/
def applyAll (L : List (Record × Int)) (r : Record) : Record :=
  L.foldl (fun r e => applyUpdate e r) r

/-- The update list computed by `transferRecords` (its `outdated` variable),
exposed for reasoning. -/
def outdatedOf (db : DB) (newId : Nat) (bound : Option Nat) (targetId : Nat) :
    List (Record × Int) :=
  (db.records.filter (fun r => r.playerId == newId && dateGte bound r.updatedAt)).filterMap
    (fun n =>
      match (db.records.filter (fun r => r.playerId == targetId)).find?
          (fun r => r.metric == n.metric && r.period == n.period) with
      | some oldEquivalent =>
          if oldEquivalent.value < n.value then some (oldEquivalent, n.value) else none
      | none => none)

def exdR : Record := ⟨1, 1, "attack", "week", 100, 5⟩

def exrR : Record := ⟨2, 2, "attack", "week", 150, 15⟩

def exDb2 : DB :=
  { players := [⟨1, "a", "a"⟩, ⟨2, "b", "b"⟩], nameChanges := [],
    snapshots := [], records := [exdR, exrR], participations := [], memberships := [],
    adminPassword := "pw", nextId := 1 }

def exDb8 : DB :=
  { players := [], nameChanges := [],
    snapshots := [⟨1, 10, 100⟩, ⟨2, 20, 200⟩, ⟨2, 4, 50⟩, ⟨1, 20, 300⟩],
    records := [], participations := [⟨2, 7, 20⟩, ⟨1, 7, 9⟩],
    memberships := [⟨2, 3, "member", 20⟩, ⟨1, 3, "leader", 2⟩],
    adminPassword := "pw", nextId := 1 }

def exCollab : Collab :=
  { getHiscoresData := fun _ => .miss,
    fromRS := fun h => ⟨0, 0, h⟩,
    calculateEHPDiff := fun _ _ => 0,
    calculateEHBDiff := fun _ _ => 0,
    hasNegativeGains := fun _ _ => false }

def exDb9 : DB :=
  { players := [], nameChanges := [⟨1, 1, "a", "b", NameChangeStatus.PENDING, none⟩],
    snapshots := [], records := [], participations := [], memberships := [],
    adminPassword := "pw", nextId := 2 }

/-- Relation between a stored request and any later version of it: a
non-pending request is frozen, and a pending one either stays unchanged,
becomes APPROVED with its resolution date set, or becomes DENIED with its
resolution date untouched. -/
def Evolves (c c2 : NameChange) : Prop :=
  c2.id = c.id ∧
  ((c.status ≠ NameChangeStatus.PENDING ∧ c2 = c)
   ∨ (c.status = NameChangeStatus.PENDING ∧
       (c2 = c
        ∨ (c2.status = NameChangeStatus.APPROVED ∧ c2.resolvedAt.isSome = true)
        ∨ (c2.status = NameChangeStatus.DENIED ∧ c2.resolvedAt = c.resolvedAt))))

def exDb7 : DB :=
  { players := [⟨1, "a", "a"⟩], snapshots := [], records := [], participations := [],
    memberships := [],
    nameChanges := [⟨1, 1, "a", "b", NameChangeStatus.PENDING, none⟩],
    adminPassword := "pw", nextId := 2 }

lemma deny_of_missing (db : DB) (id : Nat) (pw : String)
    (h : db.nameChanges.find? (fun c => c.id == id) = none) :
    deny db id pw = (db, .error (.notFound "Name change id was not found.")) := by
  unfold deny; rw [h]

lemma deny_of_notPending (db : DB) (id : Nat) (pw : String) (nc : NameChange)
    (h : db.nameChanges.find? (fun c => c.id == id) = some nc)
    (hs : nc.status ≠ NameChangeStatus.PENDING) :
    deny db id pw = (db, .error (.badRequest "Name change status must be PENDING")) := by
  unfold deny; rw [h]; simp [hs]

lemma deny_of_badPassword (db : DB) (id : Nat) (pw : String) (nc : NameChange)
    (h : db.nameChanges.find? (fun c => c.id == id) = some nc)
    (hs : nc.status = NameChangeStatus.PENDING)
    (hp : pw ≠ db.adminPassword) :
    deny db id pw = (db, .error (.badRequest "Incorrect password.")) := by
  unfold deny; rw [h]; simp [hs, hp]

lemma approve_of_missing (inj : Nat → Option ApiError) (db : DB) (id : Nat) (pw : String)
    (now : Nat) (h : db.nameChanges.find? (fun c => c.id == id) = none) :
    approve inj db id pw now = (db, .error (.notFound "Name change id was not found.")) := by
  unfold approve; rw [h]

lemma approve_of_notPending (inj : Nat → Option ApiError) (db : DB) (id : Nat) (pw : String)
    (now : Nat) (nc : NameChange)
    (h : db.nameChanges.find? (fun c => c.id == id) = some nc)
    (hs : nc.status ≠ NameChangeStatus.PENDING) :
    approve inj db id pw now = (db, .error (.badRequest "Name change status must be PENDING")) := by
  unfold approve; rw [h]; simp [hs]

lemma approve_of_badPassword (inj : Nat → Option ApiError) (db : DB) (id : Nat) (pw : String)
    (now : Nat) (nc : NameChange)
    (h : db.nameChanges.find? (fun c => c.id == id) = some nc)
    (hs : nc.status = NameChangeStatus.PENDING)
    (hp : pw ≠ db.adminPassword) :
    approve inj db id pw now = (db, .error (.badRequest "Incorrect password.")) := by
  unfold approve; rw [h]; simp [hs, hp]

lemma submit_pred_iff (o n : String) (c : NameChange) :
    ((c.oldName == o && c.newName == n && decide (c.status = NameChangeStatus.PENDING)) = true)
      ↔ (c.oldName = o ∧ c.newName = n ∧ c.status = NameChangeStatus.PENDING) := by
  simp [Bool.and_eq_true, beq_iff_eq, decide_eq_true_eq, and_assoc]

lemma submit_of_untracked (db : DB) (o n : String) (hf : find db o = none) :
    submit db o n = (db, .error (.badRequest "Player is not tracked yet.")) := by
  unfold submit; rw [hf]

lemma submit_of_duplicate (db : DB) (o n : String) (p : Player)
    (hf : find db o = some p)
    (hd : ∃ c ∈ db.nameChanges,
        c.oldName = o ∧ c.newName = n ∧ c.status = NameChangeStatus.PENDING) :
    submit db o n
      = (db, .error (.badRequest "There is already a similar pending name change request.")) := by
  unfold submit
  rw [hf]
  rcases hfind : db.nameChanges.find? (fun nc =>
      nc.oldName == o && nc.newName == n && decide (nc.status = NameChangeStatus.PENDING)) with _ | c
  · exfalso
    rcases hd with ⟨c, hc, hprop⟩
    exact absurd ((submit_pred_iff o n c).mpr hprop) (List.find?_eq_none.mp hfind c hc)
  · rw [hfind]

lemma submit_of_fresh (db : DB) (o n : String) (p : Player)
    (hf : find db o = some p)
    (hnone : ∀ c ∈ db.nameChanges,
        ¬(c.oldName = o ∧ c.newName = n ∧ c.status = NameChangeStatus.PENDING)) :
    submit db o n
      = ({ db with
            nameChanges := db.nameChanges ++
              [{ id := db.nextId, playerId := p.id, oldName := o, newName := n,
                 status := NameChangeStatus.PENDING, resolvedAt := none }],
            nextId := db.nextId + 1 },
          .ok { id := db.nextId, playerId := p.id, oldName := o, newName := n,
                status := NameChangeStatus.PENDING, resolvedAt := none }) := by
  unfold submit
  rw [hf, List.find?_eq_none.mpr (fun c hc hp => hnone c hc ((submit_pred_iff o n c).mp hp))]

/-- C5 (counterexample): the claim says submitting with an untracked donor name
fails with NotFound; on the empty store the source instead throws its
BadRequest error class (`BadRequestError` in the source, the same class as the
duplicate-pair error), and the result is not a NotFound error. -/
theorem submit_untracked_not_notFound :
    (submit exDb5 "alice" "bob").2 = .error (.badRequest "Player is not tracked yet.")
    ∧ isNotFound (submit exDb5 "alice" "bob").2 = false := by decide

/-- C5 (amended): `submit(donorName, recipientName)` fails with a BadRequest
error (not NotFound) when no tracked Identity has the donor name, fails with a
BadRequest error when an identical (donorName, recipientName) PENDING request
exists, and otherwise appends exactly one new PENDING request with an unset
resolution date, leaving the players and every history table untouched. -/
theorem submit_spec (db : DB) (o n : String) :
    (find db o = none → submit db o n = (db, .error (.badRequest "Player is not tracked yet.")))
    ∧ (∀ p, find db o = some p →
        (∃ c ∈ db.nameChanges,
            c.oldName = o ∧ c.newName = n ∧ c.status = NameChangeStatus.PENDING) →
        submit db o n
          = (db, .error (.badRequest "There is already a similar pending name change request.")))
    ∧ (∀ p, find db o = some p →
        (∀ c ∈ db.nameChanges,
            ¬(c.oldName = o ∧ c.newName = n ∧ c.status = NameChangeStatus.PENDING)) →
        submit db o n
          = ({ db with
                nameChanges := db.nameChanges ++
                  [{ id := db.nextId, playerId := p.id, oldName := o, newName := n,
                     status := NameChangeStatus.PENDING, resolvedAt := none }],
                nextId := db.nextId + 1 },
              .ok { id := db.nextId, playerId := p.id, oldName := o, newName := n,
                    status := NameChangeStatus.PENDING, resolvedAt := none })) :=
  ⟨fun hf => submit_of_untracked db o n hf,
   fun p hf hd => submit_of_duplicate db o n p hf hd,
   fun p hf hnone => submit_of_fresh db o n p hf hnone⟩

/-- Witness for C5: both the untracked-donor failure and the successful
single-row creation evaluated on concrete stores. -/
theorem submit_spec_witness :
    submit exDb5 "alice" "bob" = (exDb5, .error (.badRequest "Player is not tracked yet."))
    ∧ submit exDb5b "a" "b"
        = ({ exDb5b with
              nameChanges := [{ id := 5, playerId := 1, oldName := "a", newName := "b",
                                status := NameChangeStatus.PENDING, resolvedAt := none }],
              nextId := 6 },
            .ok { id := 5, playerId := 1, oldName := "a", newName := "b",
                  status := NameChangeStatus.PENDING, resolvedAt := none }) :=
  ⟨(submit_spec exDb5 "alice" "bob").1 (by decide),
   (submit_spec exDb5b "a" "b").2.2 ⟨1, "a", "a"⟩ (by decide) (by decide)⟩

/-- C6: `deny(id, authToken)` and `approve(id, authToken)` fail with the
NotFound error when no request with that id exists, with the invalid-status
BadRequest error when the request is not PENDING, and with the bad-credential
BadRequest error when the request exists, is PENDING and the credential is
wrong; the three error values are pairwise distinct (NotFound by class, the
two BadRequest errors by message), and every such failing call returns the
store unchanged. -/
theorem deny_approve_error_taxonomy (inj : Nat → Option ApiError) (db : DB) (id : Nat)
    (pw : String) (now : Nat) :
    (db.nameChanges.find? (fun c => c.id == id) = none →
        deny db id pw = (db, .error (.notFound "Name change id was not found."))
        ∧ approve inj db id pw now = (db, .error (.notFound "Name change id was not found.")))
    ∧ (∀ nc, db.nameChanges.find? (fun c => c.id == id) = some nc →
        nc.status ≠ NameChangeStatus.PENDING →
        deny db id pw = (db, .error (.badRequest "Name change status must be PENDING"))
        ∧ approve inj db id pw now
            = (db, .error (.badRequest "Name change status must be PENDING")))
    ∧ (∀ nc, db.nameChanges.find? (fun c => c.id == id) = some nc →
        nc.status = NameChangeStatus.PENDING → pw ≠ db.adminPassword →
        deny db id pw = (db, .error (.badRequest "Incorrect password."))
        ∧ approve inj db id pw now = (db, .error (.badRequest "Incorrect password.")))
    ∧ (ApiError.notFound "Name change id was not found."
          ≠ ApiError.badRequest "Name change status must be PENDING"
        ∧ ApiError.notFound "Name change id was not found."
            ≠ ApiError.badRequest "Incorrect password."
        ∧ ApiError.badRequest "Name change status must be PENDING"
            ≠ ApiError.badRequest "Incorrect password.") :=
  ⟨fun h => ⟨deny_of_missing db id pw h, approve_of_missing inj db id pw now h⟩,
   fun nc h hs => ⟨deny_of_notPending db id pw nc h hs,
                   approve_of_notPending inj db id pw now nc h hs⟩,
   fun nc h hs hp => ⟨deny_of_badPassword db id pw nc h hs hp,
                      approve_of_badPassword inj db id pw now nc h hs hp⟩,
   by decide⟩

/-- Witness for C6: the three failure modes of `deny` evaluated on a concrete
store holding one pending and one denied request. -/
theorem deny_approve_error_taxonomy_witness :
    (deny exDb6 9 "bad" = (exDb6, .error (.notFound "Name change id was not found.")))
    ∧ (deny exDb6 2 "bad" = (exDb6, .error (.badRequest "Name change status must be PENDING")))
    ∧ (deny exDb6 1 "bad" = (exDb6, .error (.badRequest "Incorrect password."))) :=
  ⟨((deny_approve_error_taxonomy noInj exDb6 9 "bad" 0).1 (by decide)).1,
   ((deny_approve_error_taxonomy noInj exDb6 2 "bad" 0).2.1
      ⟨2, 1, "c", "d", NameChangeStatus.DENIED, none⟩ (by decide) (by decide)).1,
   ((deny_approve_error_taxonomy noInj exDb6 1 "bad" 0).2.2.1
      ⟨1, 1, "a", "b", NameChangeStatus.PENDING, none⟩ (by decide) (by decide) (by decide)).1⟩

/-- C10: with an invalid credential fixed, `deny` and `approve` still answer
NotFound when the id is unknown and the invalid-status error when the request
is not PENDING, and raise the bad-credential error only when the request
exists and is PENDING — the credential is validated only after the existence
and status checks, so an unauthorized caller can observe both facts. -/
theorem credential_checked_last (inj : Nat → Option ApiError) (db : DB) (id : Nat)
    (pw : String) (now : Nat) (hp : pw ≠ db.adminPassword) :
    (db.nameChanges.find? (fun c => c.id == id) = none →
        deny db id pw = (db, .error (.notFound "Name change id was not found."))
        ∧ approve inj db id pw now = (db, .error (.notFound "Name change id was not found.")))
    ∧ (∀ nc, db.nameChanges.find? (fun c => c.id == id) = some nc →
        nc.status ≠ NameChangeStatus.PENDING →
        deny db id pw = (db, .error (.badRequest "Name change status must be PENDING"))
        ∧ approve inj db id pw now
            = (db, .error (.badRequest "Name change status must be PENDING")))
    ∧ (∀ nc, db.nameChanges.find? (fun c => c.id == id) = some nc →
        nc.status = NameChangeStatus.PENDING →
        deny db id pw = (db, .error (.badRequest "Incorrect password."))
        ∧ approve inj db id pw now = (db, .error (.badRequest "Incorrect password."))) :=
  ⟨fun h => ⟨deny_of_missing db id pw h, approve_of_missing inj db id pw now h⟩,
   fun nc h hs => ⟨deny_of_notPending db id pw nc h hs,
                   approve_of_notPending inj db id pw now nc h hs⟩,
   fun nc h hs => ⟨deny_of_badPassword db id pw nc h hs hp,
                   approve_of_badPassword inj db id pw now nc h hs hp⟩⟩

/-- Witness for C10: the three outcomes of `approve` under a wrong password on
a concrete store. -/
theorem credential_checked_last_witness :
    (approve noInj exDb6 9 "bad" 0 = (exDb6, .error (.notFound "Name change id was not found.")))
    ∧ (approve noInj exDb6 2 "bad" 0
        = (exDb6, .error (.badRequest "Name change status must be PENDING")))
    ∧ (approve noInj exDb6 1 "bad" 0 = (exDb6, .error (.badRequest "Incorrect password."))) :=
  ⟨((credential_checked_last noInj exDb6 9 "bad" 0 (by decide)).1 (by decide)).2,
   ((credential_checked_last noInj exDb6 2 "bad" 0 (by decide)).2.1
      ⟨2, 1, "c", "d", NameChangeStatus.DENIED, none⟩ (by decide) (by decide)).2,
   ((credential_checked_last noInj exDb6 1 "bad" 0 (by decide)).2.2
      ⟨1, 1, "a", "b", NameChangeStatus.PENDING, none⟩ (by decide) (by decide)).2⟩

lemma runTx_ok_foldl (inj : Nat → Option ApiError) (fs : List (DB → DB)) :
    ∀ (k : Nat) (db db1 : DB), runTx inj k fs db = .ok db1 →
      db1 = fs.foldl (fun d f => f d) db := by
  induction fs with
  | nil =>
    intro k db db1 h
    simp only [runTx] at h
    cases hik : inj k <;> rw [hik] at h
    · cases h; rfl
    · cases h
  | cons f fs ih =>
    intro k db db1 h
    simp only [runTx] at h
    cases hik : inj k <;> rw [hik] at h
    · simpa using ih (k + 1) (f db) db1 h
    · cases h

lemma transferData_ok_state (inj : Nat → Option ApiError) (db : DB) (oldP : Player)
    (newP : Option Player) (newName : String) (db1 : DB) (u : Unit)
    (h : transferData inj db oldP newP newName = (db1, .ok u)) :
    db1 = (mergeSteps oldP newP ((findLatest db oldP.id).map (fun s => s.createdAt))
            (standardize newName)).foldl (fun d f => f d) db := by
  unfold transferData at h
  dsimp only at h
  cases hrun : runTx inj 0 (mergeSteps oldP newP
      ((findLatest db oldP.id).map (fun s => s.createdAt)) (standardize newName)) db with
  | ok db2 =>
    rw [hrun] at h
    cases h
    exact runTx_ok_foldl inj _ 0 db db1 hrun
  | error e =>
    rw [hrun] at h
    cases h

lemma transferData_error_state (inj : Nat → Option ApiError) (db : DB) (oldP : Player)
    (newP : Option Player) (newName : String) (e : ApiError)
    (h : (transferData inj db oldP newP newName).2 = .error e) :
    transferData inj db oldP newP newName = (db, .error e) := by
  unfold transferData at *
  dsimp only at *
  cases hrun : runTx inj 0 (mergeSteps oldP newP
      ((findLatest db oldP.id).map (fun s => s.createdAt)) (standardize newName)) db with
  | ok db2 => rw [hrun] at h; cases h
  | error e2 =>
    rw [hrun] at h
    dsimp only at h
    cases h
    rfl

lemma mergeSteps_foldl_frame (oldP : Player) (newP : Option Player) (td : Option Nat)
    (name : String) (db : DB) :
    ((mergeSteps oldP newP td name).foldl (fun d f => f d) db).nameChanges = db.nameChanges
    ∧ ((mergeSteps oldP newP td name).foldl (fun d f => f d) db).nextId = db.nextId
    ∧ ((mergeSteps oldP newP td name).foldl (fun d f => f d) db).adminPassword
        = db.adminPassword := by
  cases newP <;> exact ⟨rfl, rfl, rfl⟩

lemma mergeSteps_foldl_players_none (oldP : Player) (td : Option Nat) (name : String)
    (db : DB) :
    ((mergeSteps oldP none td name).foldl (fun d f => f d) db).players
      = db.players.map (fun p =>
          if p.id = oldP.id then { p with username := name, displayName := name } else p) := rfl

lemma mergeSteps_foldl_players_some (oldP np : Player) (td : Option Nat) (name : String)
    (db : DB) :
    ((mergeSteps oldP (some np) td name).foldl (fun d f => f d) db).players
      = (db.players.filter (fun p => p.id != np.id)).map (fun p =>
          if p.id = oldP.id then { p with username := name, displayName := name } else p) := rfl

lemma approve_of_mergeFailure (inj : Nat → Option ApiError) (db : DB)
    (id : Nat) (pw : String) (now : Nat) (nc : NameChange) (oldP : Player) (e : ApiError)
    (hnc : db.nameChanges.find? (fun c => c.id == id) = some nc)
    (hst : nc.status = NameChangeStatus.PENDING)
    (hpw : pw = db.adminPassword)
    (hop : find db nc.oldName = some oldP)
    (hfail : (transferData inj db oldP (find db nc.newName) nc.newName).2 = .error e) :
    approve inj db id pw now = (db, .error e) := by
  have htd := transferData_error_state inj db oldP (find db nc.newName) nc.newName e hfail
  unfold approve
  rw [hnc]
  simp only [hst, hpw, ne_eq, not_true_eq_false, if_false, if_neg, not_false_eq_true, ite_false]
  rw [hop]
  dsimp only
  rw [htd]

/-- C4: when any step of the merge transaction raises, `approve` returns the
very same store it was called on — donor, recipient and every history row are
as before the call, so the request found by the guards is still stored
PENDING with its resolution date untouched — and the step's error propagates
unchanged to the caller; the merge itself rolls its working state back to the
pre-call store. -/
theorem approve_rolls_back_on_merge_failure (inj : Nat → Option ApiError) (db : DB)
    (id : Nat) (pw : String) (now : Nat) (nc : NameChange) (oldP : Player) (e : ApiError)
    (hnc : db.nameChanges.find? (fun c => c.id == id) = some nc)
    (hst : nc.status = NameChangeStatus.PENDING)
    (hpw : pw = db.adminPassword)
    (hop : find db nc.oldName = some oldP)
    (hfail : (transferData inj db oldP (find db nc.newName) nc.newName).2 = .error e) :
    approve inj db id pw now = (db, .error e)
    ∧ (transferData inj db oldP (find db nc.newName) nc.newName).1 = db
    ∧ nc ∈ db.nameChanges ∧ nc.status = NameChangeStatus.PENDING :=
  ⟨approve_of_mergeFailure inj db id pw now nc oldP e hnc hst hpw hop hfail,
   by rw [transferData_error_state inj db oldP (find db nc.newName) nc.newName e hfail],
   List.mem_of_find?_eq_some hnc, hst⟩

/-- Witness for C4: a fault injected at the membership-transfer step of a
concrete approval leaves the store identical and surfaces the injected
error. -/
theorem approve_rolls_back_on_merge_failure_witness :
    approve injFail exDb4 1 "pw" 9 = (exDb4, .error (.serverError "store failure"))
    ∧ (transferData injFail exDb4 ⟨1, "a", "a"⟩ (find exDb4 "b") "b").1 = exDb4
    ∧ (⟨1, 1, "a", "b", NameChangeStatus.PENDING, none⟩ : NameChange) ∈ exDb4.nameChanges
    ∧ (⟨1, 1, "a", "b", NameChangeStatus.PENDING, none⟩ : NameChange).status
        = NameChangeStatus.PENDING :=
  approve_rolls_back_on_merge_failure injFail exDb4 1 "pw" 9
    ⟨1, 1, "a", "b", NameChangeStatus.PENDING, none⟩ ⟨1, "a", "a"⟩
    (.serverError "store failure")
    (by decide) (by decide) (by decide) (by decide) (by decide)

lemma find_spec (db : DB) (name : String) (p : Player) (h : find db name = some p) :
    p ∈ db.players ∧ p.username = name := by
  unfold find at h
  exact ⟨List.mem_of_find?_eq_some h, by simpa using List.find?_some h⟩

lemma saveNameChange_players (db : DB) (nc : NameChange) :
    (saveNameChange db nc).players = db.players := rfl

/-- C1 (amended): for every successfully approved rename request whose donor
name differs from its recipient name (donor and recipient are then distinct
identities), the donor Identity survives carrying the request's recipient name
as its current and display name, and the recipient Identity, if it existed
when the merge ran, no longer exists.  The distinct-names hypothesis is forced
by the same-name counterexample recorded for this claim. -/
theorem approve_renames_donor_and_destroys_recipient (inj : Nat → Option ApiError)
    (db db' : DB) (id : Nat) (pw : String) (now : Nat) (nc : NameChange)
    (hids : ∀ a ∈ db.players, ∀ b ∈ db.players, a.id = b.id → a = b)
    (happ : approve inj db id pw now = (db', .ok nc))
    (hnames : nc.oldName ≠ nc.newName) :
    (∃ donor, find db nc.oldName = some donor
        ∧ { donor with username := nc.newName, displayName := nc.newName } ∈ db'.players)
    ∧ (∀ recipient, find db nc.newName = some recipient →
        ∀ q ∈ db'.players, q.id ≠ recipient.id) := by
  unfold approve at happ
  rcases hnc : db.nameChanges.find? (fun c => c.id == id) with _ | nc0 <;> rw [hnc] at happ
  · exact absurd happ (by simp)
  dsimp only at happ
  by_cases hst : nc0.status = NameChangeStatus.PENDING
  case neg =>
    rw [if_pos hst] at happ
    exact absurd happ (by simp)
  rw [if_neg (fun h => h hst)] at happ
  by_cases hpw : pw = db.adminPassword
  case neg =>
    rw [if_pos hpw] at happ
    exact absurd happ (by simp)
  rw [if_neg (fun h => h hpw)] at happ
  rcases hop : find db nc0.oldName with _ | oldP <;> rw [hop] at happ
  · exact absurd happ (by simp)
  dsimp only at happ
  rcases htd : transferData inj db oldP (find db nc0.newName) nc0.newName with ⟨db1, res⟩
  rw [htd] at happ
  cases res with
  | error e => exact absurd happ (by simp)
  | ok u =>
    rw [Prod.mk.injEq] at happ
    obtain ⟨hdb', hnc'⟩ := happ
    injection hnc' with hnc'
    subst hnc'
    subst hdb'
    have hfold := transferData_ok_state inj db oldP (find db nc0.newName) nc0.newName db1 u htd
    have hdonor := find_spec db nc0.oldName oldP hop
    rw [saveNameChange_players]
    dsimp only
    rcases hrec : find db nc0.newName with _ | np
    · -- recipient absent: only the rename runs
      rw [hrec] at hfold
      subst hfold
      rw [mergeSteps_foldl_players_none]
      refine ⟨⟨oldP, hop, ?_⟩, ?_⟩
      · have hmem := List.mem_map_of_mem (fun p =>
          if p.id = oldP.id then
            { p with username := standardize nc0.newName,
                     displayName := standardize nc0.newName } else p) hdonor.1
        simpa using hmem
      · intro recipient hfind
        cases hfind
    · -- recipient present: it is destroyed and the donor renamed
      rw [hrec] at hfold
      subst hfold
      rw [mergeSteps_foldl_players_some]
      have hrecip := find_spec db nc0.newName np hrec
      have hne : oldP.id ≠ np.id := by
        intro hcon
        have heq := hids oldP hdonor.1 np hrecip.1 hcon
        apply hnames
        show nc0.oldName = nc0.newName
        rw [← hdonor.2, ← hrecip.2, heq]
      refine ⟨⟨oldP, hop, ?_⟩, ?_⟩
      · have hmemf : oldP ∈ db.players.filter (fun p => p.id != np.id) :=
          List.mem_filter.mpr ⟨hdonor.1, by simpa using hne⟩
        have hmem := List.mem_map_of_mem (fun p =>
          if p.id = oldP.id then
            { p with username := standardize nc0.newName,
                     displayName := standardize nc0.newName } else p) hmemf
        simpa using hmem
      · intro recipient hfind q hq
        injection hfind with hfind
        subst hfind
        rw [List.mem_map] at hq
        obtain ⟨p, hpmem, hpq⟩ := hq
        have hpid : p.id ≠ np.id := by
          have := List.mem_filter.mp hpmem
          simpa using this.2
        have hqid : q.id = p.id := by
          rw [← hpq]
          by_cases hcase : p.id = oldP.id <;> simp [hcase]
        rw [hqid]
        exact hpid

/-- C1 (counterexample): a request whose donor and recipient names coincide is
accepted and approved, but the merge destroys the recipient row — which is the
donor row — and the rename update then touches no row, so after a successful
approval no Identity carries the recipient name at all, contradicting the
claim as stated for every approved request. -/
theorem approve_same_name_loses_donor :
    (approve noInj exDbSame 1 "pw" 0).2
      = .ok { id := 1, playerId := 1, oldName := "a", newName := "a",
              status := NameChangeStatus.APPROVED, resolvedAt := some 0 }
    ∧ (approve noInj exDbSame 1 "pw" 0).1.players = [] := by decide

/-- Witness for C1: a concrete approval of the rename a → b renames player 1
and removes player 2. -/
theorem approve_renames_donor_and_destroys_recipient_witness :
    (∃ donor, find exDbA "a" = some donor
        ∧ { donor with username := "b", displayName := "b" } ∈ exDbA'.players)
    ∧ (∀ recipient, find exDbA "b" = some recipient →
        ∀ q ∈ exDbA'.players, q.id ≠ recipient.id) :=
  approve_renames_donor_and_destroys_recipient noInj exDbA exDbA' 1 "pw" 7 exNcA
    (by decide) (by decide) (by decide)

lemma foldl_map_applyUpdate (L : List (Record × Int)) (recs : List Record) :
    L.foldl (fun recs e => recs.map (applyUpdate e)) recs = recs.map (applyAll L) := by
  induction L generalizing recs with
  | nil =>
    show recs = recs.map (applyAll [])
    have h0 : recs.map (applyAll []) = recs.map (fun r => r) := rfl
    rw [h0, List.map_id']
  | cons e L ih =>
    simp only [List.foldl_cons, ih, List.map_map]
    rfl

lemma applyAll_fields (L : List (Record × Int)) (r : Record) :
    (applyAll L r).id = r.id ∧ (applyAll L r).playerId = r.playerId
    ∧ (applyAll L r).metric = r.metric ∧ (applyAll L r).period = r.period
    ∧ (applyAll L r).updatedAt = r.updatedAt := by
  induction L generalizing r with
  | nil => exact ⟨rfl, rfl, rfl, rfl, rfl⟩
  | cons e L ih =>
    have := ih (applyUpdate e r)
    unfold applyUpdate at this
    by_cases h : r.id = e.1.id <;> simp [applyAll, List.foldl_cons, applyUpdate, h] at this ⊢ <;>
      simpa [applyUpdate, h] using this

lemma applyAll_keep (L : List (Record × Int)) (r : Record)
    (h : ∀ e ∈ L, e.1.id = r.id → e.2 = r.value) :
    applyAll L r = r := by
  induction L generalizing r with
  | nil => rfl
  | cons e L ih =>
    have hstep : applyUpdate e r = r := by
      unfold applyUpdate
      by_cases hid : r.id = e.1.id
      · have hv := h e (List.mem_cons_self e L) hid.symm
        rw [if_pos hid, hv]
      · rw [if_neg hid]
    show applyAll L (applyUpdate e r) = r
    rw [hstep]
    exact ih r (fun e2 he2 => h e2 (List.mem_cons_of_mem e he2))

lemma applyAll_once (L : List (Record × Int)) (r : Record) (v : Int)
    (hall : ∀ e ∈ L, e.1.id = r.id → e.2 = v)
    (hex : ∃ e ∈ L, e.1.id = r.id) :
    applyAll L r = { r with value := v } := by
  induction L generalizing r with
  | nil => rcases hex with ⟨e, he, _⟩; cases he
  | cons e L ih =>
    by_cases hid : e.1.id = r.id
    · have hv := hall e (List.mem_cons_self e L) hid
      have hstep : applyUpdate e r = { r with value := v } := by
        unfold applyUpdate
        rw [if_pos hid.symm, hv]
      show applyAll L (applyUpdate e r) = { r with value := v }
      rw [hstep]
      exact applyAll_keep L { r with value := v }
        (fun e2 he2 hid2 => hall e2 (List.mem_cons_of_mem e he2) hid2)
    · have hstep : applyUpdate e r = r := by
        unfold applyUpdate
        rw [if_neg (fun hcon => hid hcon.symm)]
      show applyAll L (applyUpdate e r) = { r with value := v }
      rw [hstep]
      refine ih r (fun e2 he2 hid2 => hall e2 (List.mem_cons_of_mem e he2) hid2) ?_
      rcases hex with ⟨e2, he2, hid2⟩
      rcases List.mem_cons.mp he2 with rfl | he2
      · exact absurd hid2 hid
      · exact ⟨e2, he2, hid2⟩

lemma applyAll_value_ge (L : List (Record × Int)) (r : Record) (c : Int)
    (hall : ∀ e ∈ L, e.1.id = r.id → c ≤ e.2) (hc : c ≤ r.value) :
    c ≤ (applyAll L r).value := by
  induction L generalizing r with
  | nil => exact hc
  | cons e L ih =>
    show c ≤ (applyAll L (applyUpdate e r)).value
    have hid : (applyUpdate e r).id = r.id := by
      unfold applyUpdate
      by_cases h : r.id = e.1.id <;> simp [h]
    refine ih (applyUpdate e r) (fun e2 he2 h2 => hall e2 (List.mem_cons_of_mem e he2) ?_) ?_
    · rw [← hid]; exact h2
    · unfold applyUpdate
      by_cases h : r.id = e.1.id
      · rw [if_pos h]
        exact hall e (List.mem_cons_self e L) h.symm
      · rw [if_neg h]
        exact hc

lemma transferRecords_records (db : DB) (newId : Nat) (bound : Option Nat) (targetId : Nat) :
    (transferRecords db newId bound targetId).records
      = db.records.map (applyAll (outdatedOf db newId bound targetId)) := by
  unfold transferRecords outdatedOf
  dsimp only
  rw [foldl_map_applyUpdate]

lemma transferRecords_frame (db : DB) (newId : Nat) (bound : Option Nat) (targetId : Nat) :
    (transferRecords db newId bound targetId).players = db.players
    ∧ (transferRecords db newId bound targetId).snapshots = db.snapshots
    ∧ (transferRecords db newId bound targetId).nameChanges = db.nameChanges := ⟨rfl, rfl, rfl⟩

lemma outdated_spec (db : DB) (newId : Nat) (bound : Option Nat) (targetId : Nat)
    (e : Record × Int) (he : e ∈ outdatedOf db newId bound targetId) :
    e.1 ∈ db.records ∧ e.1.playerId = targetId ∧ e.1.value < e.2
    ∧ ∃ n ∈ db.records, n.playerId = newId ∧ dateGte bound n.updatedAt = true
        ∧ n.metric = e.1.metric ∧ n.period = e.1.period ∧ e.2 = n.value := by
  unfold outdatedOf at he
  rw [List.mem_filterMap] at he
  obtain ⟨n, hn, hfn⟩ := he
  rw [List.mem_filter] at hn
  obtain ⟨hnmem, hnpred⟩ := hn
  rw [Bool.and_eq_true, beq_iff_eq] at hnpred
  rcases hfind : (db.records.filter (fun r => r.playerId == targetId)).find?
      (fun r => r.metric == n.metric && r.period == n.period) with _ | oldEq <;>
    rw [hfind] at hfn
  · cases hfn
  dsimp only at hfn
  by_cases hlt : oldEq.value < n.value
  · rw [if_pos hlt] at hfn
    injection hfn with hfn
    subst hfn
    have hOldMem := List.mem_of_find?_eq_some hfind
    rw [List.mem_filter] at hOldMem
    have hOldPred := List.find?_some hfind
    rw [Bool.and_eq_true, beq_iff_eq, beq_iff_eq] at hOldPred
    refine ⟨hOldMem.1, by simpa using hOldMem.2, hlt,
      n, hnmem, hnpred.1, hnpred.2, hOldPred.1.symm, hOldPred.2.symm, rfl⟩
  · rw [if_neg hlt] at hfn
    cases hfn

/-- C2: in a records merge, under the store invariants (unique record ids and
at most one record per (playerId, metric, period)), for each (metric, period)
pair where the donor owns a record and the recipient owns one whose update
date is at or after the transition, the donor's row ends with value
max(donor value before, recipient value); and the merge never decreases any
record's value — every row survives with the same id, owner, metric and
period and a value at least its old one. -/
theorem transferRecords_max_merge (db : DB) (newId targetId T : Nat)
    (hids : ∀ a ∈ db.records, ∀ b ∈ db.records, a.id = b.id → a = b)
    (hkeys : ∀ a ∈ db.records, ∀ b ∈ db.records,
        a.playerId = b.playerId → a.metric = b.metric → a.period = b.period → a = b)
    (dRow rRow : Record)
    (hd : dRow ∈ db.records) (hdp : dRow.playerId = targetId)
    (hr : rRow ∈ db.records) (hrp : rRow.playerId = newId)
    (hrt : T ≤ rRow.updatedAt)
    (hm : rRow.metric = dRow.metric) (hpd : rRow.period = dRow.period) :
    { dRow with value := max dRow.value rRow.value }
        ∈ (transferRecords db newId (some T) targetId).records
    ∧ ∀ r ∈ db.records, ∃ r2 ∈ (transferRecords db newId (some T) targetId).records,
        r2.id = r.id ∧ r2.playerId = r.playerId ∧ r2.metric = r.metric
        ∧ r2.period = r.period ∧ r.value ≤ r2.value := by
  have M : ∀ e ∈ outdatedOf db newId (some T) targetId, e.1.id = dRow.id →
      e = (dRow, rRow.value) ∧ dRow.value < rRow.value := by
    intro e he hid
    obtain ⟨hmem1, hpid1, hlt1, n, hnmem, hnpid, hndate, hnm, hnp, he2⟩ :=
      outdated_spec db newId (some T) targetId e he
    have he1 : e.1 = dRow := hids e.1 hmem1 dRow hd hid
    have hn : n = rRow := by
      refine hkeys n hnmem rRow hr ?_ ?_ ?_
      · rw [hnpid, hrp]
      · rw [hnm, he1, hm]
      · rw [hnp, he1, hpd]
    have he2v : e.2 = rRow.value := by rw [he2, hn]
    constructor
    · calc e = (e.1, e.2) := rfl
        _ = (dRow, rRow.value) := by rw [he1, he2v]
    · rw [he1] at hlt1
      rw [he2v] at hlt1
      exact hlt1
  have hmono : ∀ r ∈ db.records,
      ∃ r2 ∈ (transferRecords db newId (some T) targetId).records,
        r2.id = r.id ∧ r2.playerId = r.playerId ∧ r2.metric = r.metric
        ∧ r2.period = r.period ∧ r.value ≤ r2.value := by
    intro r hrm
    refine ⟨applyAll (outdatedOf db newId (some T) targetId) r, ?_, ?_⟩
    · rw [transferRecords_records]
      exact List.mem_map_of_mem _ hrm
    · obtain ⟨f1, f2, f3, f4, f5⟩ := applyAll_fields (outdatedOf db newId (some T) targetId) r
      refine ⟨f1, f2, f3, f4, ?_⟩
      refine applyAll_value_ge _ r r.value ?_ le_rfl
      intro e he hid
      obtain ⟨hmem1, _, hlt1, _⟩ := outdated_spec db newId (some T) targetId e he
      have he1 : e.1 = r := hids e.1 hmem1 r hrm hid
      rw [he1] at hlt1
      exact le_of_lt hlt1
  refine ⟨?_, hmono⟩
  by_cases hlt : dRow.value < rRow.value
  · have hfind : (db.records.filter (fun r => r.playerId == targetId)).find?
        (fun r => r.metric == rRow.metric && r.period == rRow.period) = some dRow := by
      have hdmem : dRow ∈ db.records.filter (fun r => r.playerId == targetId) :=
        List.mem_filter.mpr ⟨hd, by simp [hdp]⟩
      have hdpred : (dRow.metric == rRow.metric && dRow.period == rRow.period) = true := by
        simp [hm, hpd]
      have hsome : ((db.records.filter (fun r => r.playerId == targetId)).find?
          (fun r => r.metric == rRow.metric && r.period == rRow.period)).isSome := by
        rw [List.find?_isSome]
        exact ⟨dRow, hdmem, hdpred⟩
      obtain ⟨x, hx⟩ := Option.isSome_iff_exists.mp hsome
      have hxmem := List.mem_of_find?_eq_some hx
      rw [List.mem_filter] at hxmem
      have hxpred := List.find?_some hx
      rw [Bool.and_eq_true, beq_iff_eq, beq_iff_eq] at hxpred
      have hxd : x = dRow := by
        refine hkeys x hxmem.1 dRow hd ?_ ?_ ?_
        · have : x.playerId = targetId := by simpa using hxmem.2
          rw [this, hdp]
        · rw [hxpred.1, hm]
        · rw [hxpred.2, hpd]
      rw [← hxd]
      exact hx
    have hmemL : (dRow, rRow.value) ∈ outdatedOf db newId (some T) targetId := by
      unfold outdatedOf
      rw [List.mem_filterMap]
      refine ⟨rRow, List.mem_filter.mpr ⟨hr, ?_⟩, ?_⟩
      · simp [hrp, dateGte, hrt]
      · rw [hfind]
        dsimp only
        rw [if_pos hlt]
    have happ : applyAll (outdatedOf db newId (some T) targetId) dRow
        = { dRow with value := rRow.value } :=
      applyAll_once _ dRow rRow.value
        (fun e he hid => by rw [(M e he hid).1])
        ⟨(dRow, rRow.value), hmemL, rfl⟩
    rw [transferRecords_records, max_eq_right (le_of_lt hlt)]
    have hmem := List.mem_map_of_mem (applyAll (outdatedOf db newId (some T) targetId)) hd
    rw [happ] at hmem
    exact hmem
  · have happ : applyAll (outdatedOf db newId (some T) targetId) dRow = dRow :=
      applyAll_keep _ dRow (fun e he hid => absurd (M e he hid).2 hlt)
    rw [transferRecords_records, max_eq_left (not_lt.mp hlt)]
    have hmem := List.mem_map_of_mem (applyAll (outdatedOf db newId (some T) targetId)) hd
    rw [happ] at hmem
    exact hmem

/-- Witness for C2: the concrete scenario of the spec — donor best 100,
recipient best 150 after the transition — ends with the donor row at 150. -/
theorem transferRecords_max_merge_witness :
    { exdR with value := max exdR.value exrR.value }
      ∈ (transferRecords exDb2 2 (some 5) 1).records :=
  (transferRecords_max_merge exDb2 2 1 5 (by decide) (by decide) exdR exrR
    (by decide) (by decide) (by decide) (by decide) (by decide) (by decide) (by decide)).1

lemma map_filter_keys (l : List Record) (F : Record → Record) (t : Nat)
    (h : ∀ a ∈ l, (F a).playerId = a.playerId ∧ (F a).metric = a.metric
        ∧ (F a).period = a.period) :
    ((l.map F).filter (fun r => r.playerId == t)).map (fun r => (r.metric, r.period))
      = (l.filter (fun r => r.playerId == t)).map (fun r => (r.metric, r.period)) := by
  induction l with
  | nil => rfl
  | cons a l ih =>
    have ha := h a (List.mem_cons_self a l)
    have hrest := ih (fun b hb => h b (List.mem_cons_of_mem a hb))
    simp only [List.map_cons, List.filter_cons]
    rw [ha.1]
    by_cases hp : (a.playerId == t) = true
    · simp only [hp, if_true]
      simp only [List.map_cons]
      rw [ha.2.1, ha.2.2, hrest]
    · simp only [Bool.not_eq_true] at hp
      simp only [hp, Bool.false_eq_true, if_false]
      exact hrest

/-- C3: the records-merge step never creates or deletes a record row — the
list of (playerId, metric, period) ownership triples over the whole table is
unchanged, and in particular the donor's set of (metric, period) pairs is
exactly the same after the merge as before it, even when the recipient has
rows for pairs the donor lacks. -/
theorem transferRecords_preserves_record_keys (db : DB) (newId : Nat) (bound : Option Nat)
    (targetId : Nat) :
    ((transferRecords db newId bound targetId).records.map
        (fun r => (r.playerId, r.metric, r.period)))
      = db.records.map (fun r => (r.playerId, r.metric, r.period))
    ∧ (((transferRecords db newId bound targetId).records.filter
          (fun r => r.playerId == targetId)).map (fun r => (r.metric, r.period)))
      = ((db.records.filter (fun r => r.playerId == targetId)).map
          (fun r => (r.metric, r.period))) := by
  constructor
  · rw [transferRecords_records, List.map_map]
    refine List.map_congr_left ?_
    intro a ha
    obtain ⟨f1, f2, f3, f4, f5⟩ := applyAll_fields (outdatedOf db newId bound targetId) a
    simp [Function.comp, f2, f3, f4]
  · rw [transferRecords_records]
    refine map_filter_keys db.records _ targetId ?_
    intro a ha
    obtain ⟨f1, f2, f3, f4, f5⟩ := applyAll_fields (outdatedOf db newId bound targetId) a
    exact ⟨f2, f3, f4⟩

lemma insertIgnore_nil {α κ : Type} [DecidableEq κ] (key : α → κ) (tbl : List α) :
    insertIgnore key tbl [] = tbl := rfl

lemma insertIgnore_cons {α κ : Type} [DecidableEq κ] (key : α → κ) (tbl : List α)
    (r : α) (rows : List α) :
    insertIgnore key tbl (r :: rows)
      = insertIgnore key
          (if tbl.any (fun t => decide (key t = key r)) then tbl else tbl ++ [r]) rows := rfl

lemma insertIgnore_extends {α κ : Type} [DecidableEq κ] (key : α → κ) (rows : List α) :
    ∀ tbl : List α, ∃ extra, insertIgnore key tbl rows = tbl ++ extra
      ∧ ∀ r ∈ extra, r ∈ rows := by
  induction rows with
  | nil => exact fun tbl => ⟨[], by simp [insertIgnore_nil], by simp⟩
  | cons r rows ih =>
    intro tbl
    rw [insertIgnore_cons]
    by_cases hc : tbl.any (fun t => decide (key t = key r)) = true
    · rw [if_pos hc]
      obtain ⟨extra, he, hsub⟩ := ih tbl
      exact ⟨extra, he, fun x hx => List.mem_cons_of_mem r (hsub x hx)⟩
    · rw [if_neg hc]
      obtain ⟨extra, he, hsub⟩ := ih (tbl ++ [r])
      refine ⟨r :: extra, ?_, ?_⟩
      · rw [he, List.append_assoc]
        rfl
      · intro x hx
        rcases List.mem_cons.mp hx with rfl | hx
        · exact List.mem_cons_self x rows
        · exact List.mem_cons_of_mem r (hsub x hx)

lemma insertIgnore_mem_of_mem {α κ : Type} [DecidableEq κ] (key : α → κ) (rows tbl : List α)
    (t : α) (h : t ∈ tbl) : t ∈ insertIgnore key tbl rows := by
  obtain ⟨extra, he, _⟩ := insertIgnore_extends key rows tbl
  rw [he]
  exact List.mem_append_left extra h

lemma insertIgnore_key_present {α κ : Type} [DecidableEq κ] (key : α → κ) (rows : List α) :
    ∀ tbl : List α, ∀ r ∈ rows, ∃ t ∈ insertIgnore key tbl rows, key t = key r := by
  induction rows with
  | nil => intro tbl r hr; cases hr
  | cons a rows ih =>
    intro tbl r hr
    rw [insertIgnore_cons]
    rcases List.mem_cons.mp hr with rfl | hr
    · by_cases hc : tbl.any (fun t => decide (key t = key r)) = true
      · rw [if_pos hc]
        obtain ⟨t, ht, hkt⟩ := List.any_eq_true.mp hc
        exact ⟨t, insertIgnore_mem_of_mem key rows tbl t ht, of_decide_eq_true hkt⟩
      · rw [if_neg hc]
        refine ⟨r, insertIgnore_mem_of_mem key rows (tbl ++ [r]) r ?_, rfl⟩
        exact List.mem_append_right tbl (List.mem_singleton.mpr rfl)
    · exact ih _ r hr

lemma insertIgnore_noop {α κ : Type} [DecidableEq κ] (key : α → κ) (rows : List α) :
    ∀ tbl : List α, (∀ r ∈ rows, ∃ t ∈ tbl, key t = key r) →
      insertIgnore key tbl rows = tbl := by
  induction rows with
  | nil => intro tbl _; rfl
  | cons a rows ih =>
    intro tbl h
    rw [insertIgnore_cons]
    have hc : tbl.any (fun t => decide (key t = key a)) = true := by
      obtain ⟨t, ht, hk⟩ := h a (List.mem_cons_self a rows)
      exact List.any_eq_true.mpr ⟨t, ht, decide_eq_true hk⟩
    rw [if_pos hc]
    exact ih tbl (fun r hr => h r (List.mem_cons_of_mem a hr))

lemma insertIgnore_idem {α κ : Type} [DecidableEq κ] (key : α → κ) (tbl rows : List α) :
    insertIgnore key (insertIgnore key tbl rows) rows = insertIgnore key tbl rows :=
  insertIgnore_noop key rows (insertIgnore key tbl rows)
    (fun r hr => insertIgnore_key_present key rows tbl r hr)

lemma insertIgnore_filter_idem {α κ : Type} [DecidableEq κ] (key : α → κ) (tbl : List α)
    (p : α → Bool) (mv : α → α) (hmv : ∀ a, p (mv a) = false) :
    insertIgnore key (insertIgnore key tbl ((tbl.filter p).map mv))
        (((insertIgnore key tbl ((tbl.filter p).map mv)).filter p).map mv)
      = insertIgnore key tbl ((tbl.filter p).map mv) := by
  obtain ⟨extra, he, hsub⟩ := insertIgnore_extends key ((tbl.filter p).map mv) tbl
  have hfe : (insertIgnore key tbl ((tbl.filter p).map mv)).filter p = tbl.filter p := by
    rw [he, List.filter_append]
    have hnil : extra.filter p = [] := by
      rw [List.filter_eq_nil_iff]
      intro a ha
      obtain ⟨b, hb, rfl⟩ := List.mem_map.mp (hsub a ha)
      simp [hmv b]
    rw [hnil, List.append_nil]
  rw [hfe]
  exact insertIgnore_idem key tbl ((tbl.filter p).map mv)

/-- C8: the snapshot, participation and membership transfer steps re-insert
recipient rows as donor rows while ignoring natural-key duplicates
((identityId, createdAt) for snapshots, (identityId, eventId) for
participations, (identityId, groupId) for memberships), and each is
idempotent: running the same transfer twice over the same pre-transition data
leaves the store — in particular every row count — exactly as after one run;
moreover every row present after a transfer is either an original row or a
donor-owned copy of a recipient row created at or after the transition. -/
theorem transfer_idempotent (db : DB) (newId : Nat) (bound : Option Nat) (targetId : Nat)
    (hne : targetId ≠ newId) :
    transferSnapshots (transferSnapshots db newId bound targetId) newId bound targetId
      = transferSnapshots db newId bound targetId
    ∧ transferParticipations (transferParticipations db newId bound targetId) newId bound targetId
      = transferParticipations db newId bound targetId
    ∧ transferMemberships (transferMemberships db newId bound targetId) newId bound targetId
      = transferMemberships db newId bound targetId
    ∧ ∀ s ∈ (transferSnapshots db newId bound targetId).snapshots,
        s ∈ db.snapshots
        ∨ (s.playerId = targetId ∧ dateGte bound s.createdAt = true
            ∧ { s with playerId := newId } ∈ db.snapshots) := by
  have hbeq : (targetId == newId) = false := by simpa using hne
  refine ⟨?_, ?_, ?_, ?_⟩
  · unfold transferSnapshots
    dsimp only
    congr 1
    exact insertIgnore_filter_idem snapshotKey db.snapshots _ _ (fun a => by simp [hbeq])
  · unfold transferParticipations
    dsimp only
    congr 1
    exact insertIgnore_filter_idem participationKey db.participations _ _
      (fun a => by simp [hbeq])
  · unfold transferMemberships
    dsimp only
    congr 1
    exact insertIgnore_filter_idem membershipKey db.memberships _ _ (fun a => by simp [hbeq])
  · intro s hs
    unfold transferSnapshots at hs
    dsimp only at hs
    obtain ⟨extra, he, hsub⟩ := insertIgnore_extends snapshotKey
      ((db.snapshots.filter (fun s => s.playerId == newId && dateGte bound s.createdAt)).map
        (fun s => { s with playerId := targetId })) db.snapshots
    rw [he] at hs
    rcases List.mem_append.mp hs with h | h
    · exact Or.inl h
    · right
      obtain ⟨b, hb, rfl⟩ := List.mem_map.mp (hsub s h)
      rw [List.mem_filter] at hb
      obtain ⟨hbmem, hbpred⟩ := hb
      rw [Bool.and_eq_true, beq_iff_eq] at hbpred
      refine ⟨rfl, hbpred.2, ?_⟩
      have hback : ({ { b with playerId := targetId } with playerId := newId } : Snapshot) = b := by
        cases b
        dsimp only at hbpred ⊢
        rw [hbpred.1]
      rw [hback]
      exact hbmem

/-- Witness for C8: the three transfers evaluated twice on a concrete store
agree with a single run. -/
theorem transfer_idempotent_witness :
    transferSnapshots (transferSnapshots exDb8 2 (some 5) 1) 2 (some 5) 1
      = transferSnapshots exDb8 2 (some 5) 1
    ∧ transferParticipations (transferParticipations exDb8 2 (some 5) 1) 2 (some 5) 1
      = transferParticipations exDb8 2 (some 5) 1
    ∧ transferMemberships (transferMemberships exDb8 2 (some 5) 1) 2 (some 5) 1
      = transferMemberships exDb8 2 (some 5) 1 :=
  ⟨(transfer_idempotent exDb8 2 (some 5) 1 (by decide)).1,
   (transfer_idempotent exDb8 2 (some 5) 1 (by decide)).2.1,
   (transfer_idempotent exDb8 2 (some 5) 1 (by decide)).2.2.1⟩

/-- C9: `getDetails(id)` on an existing request dereferences the donor player
and the donor's latest snapshot without a presence check: when the hiscores
lookups do not fatally fail, an untracked donor name makes the call die with
the unguarded null access on `oldPlayer.id`, and a donor without snapshots
with the unguarded null access on `oldStats.createdAt` — not with a NotFound
error and not with a ComparisonResult. -/
theorem getDetails_null_access (collab : Collab) (now : Nat) (db : DB) (id : Nat)
    (nc : NameChange)
    (hnc : db.nameChanges.find? (fun c => c.id == id) = some nc)
    (hnew : collab.getHiscoresData nc.newName ≠ .serverDown)
    (hold : collab.getHiscoresData nc.oldName ≠ .serverDown) :
    (find db nc.oldName = none →
        getDetails collab now db id = (db, .error (.nullAccess "oldPlayer.id")))
    ∧ (∀ p, find db nc.oldName = some p → findLatest db p.id = none →
        getDetails collab now db id = (db, .error (.nullAccess "oldStats.createdAt"))) := by
  unfold getDetails
  rw [hnc]
  dsimp only
  rcases hhn : collab.getHiscoresData nc.newName with s | _ | _
  case serverDown => exact absurd hhn hnew
  all_goals
    rcases hho : collab.getHiscoresData nc.oldName with s2 | _ | _ <;>
      first
        | exact absurd hho hold
        | exact ⟨fun hfind => by rw [hfind], fun p hfind hlat => by
            rw [hfind]
            dsimp only
            rw [hlat]⟩

/-- Witness for C9: on a store with a request whose donor is untracked, the
call evaluates to the null-access failure. -/
theorem getDetails_null_access_witness :
    getDetails exCollab 0 exDb9 1 = (exDb9, .error (.nullAccess "oldPlayer.id")) :=
  (getDetails_null_access exCollab 0 exDb9 1 ⟨1, 1, "a", "b", NameChangeStatus.PENDING, none⟩
    (by decide) (by decide) (by decide)).1 (by decide)

lemma Evolves_refl (c : NameChange) : Evolves c c := by
  by_cases h : c.status = NameChangeStatus.PENDING
  · exact ⟨rfl, Or.inr ⟨h, Or.inl rfl⟩⟩
  · exact ⟨rfl, Or.inl ⟨h, rfl⟩⟩

lemma Evolves_trans (a b c : NameChange) (h1 : Evolves a b) (h2 : Evolves b c) :
    Evolves a c := by
  obtain ⟨hid1, h1⟩ := h1
  obtain ⟨hid2, h2⟩ := h2
  refine ⟨hid2.trans hid1, ?_⟩
  rcases h1 with ⟨hnp, rfl⟩ | ⟨hp, h1⟩
  · rcases h2 with ⟨hnp2, rfl⟩ | ⟨hp2, h2⟩
    · exact Or.inl ⟨hnp, rfl⟩
    · exact absurd hp2 hnp
  · rcases h1 with rfl | h1
    · rcases h2 with ⟨hnp2, rfl⟩ | ⟨hp2, h2⟩
      · exact absurd hp hnp2
      · exact Or.inr ⟨hp, h2⟩
    · have hbnp : b.status ≠ NameChangeStatus.PENDING := by
        rcases h1 with ⟨hA, _⟩ | ⟨hD, _⟩
        · simp [hA]
        · simp [hD]
      rcases h2 with ⟨hnp2, rfl⟩ | ⟨hp2, h2⟩
      · exact Or.inr ⟨hp, Or.inr h1⟩
      · exact absurd hp2 hbnp

lemma saveNameChange_resolution (db db1 : DB) (nc0 nc2 : NameChange)
    (hsame : db1.nameChanges = db.nameChanges) (hnext : db1.nextId = db.nextId)
    (hb : ∀ c ∈ db.nameChanges, c.id < db.nextId)
    (hi : ∀ a ∈ db.nameChanges, ∀ b ∈ db.nameChanges, a.id = b.id → a = b)
    (hmem : nc0 ∈ db.nameChanges) (hid : nc2.id = nc0.id) (hev : Evolves nc0 nc2) :
    (∀ c ∈ (saveNameChange db1 nc2).nameChanges, c.id < (saveNameChange db1 nc2).nextId)
    ∧ (∀ a ∈ (saveNameChange db1 nc2).nameChanges,
        ∀ b ∈ (saveNameChange db1 nc2).nameChanges, a.id = b.id → a = b)
    ∧ (∀ c ∈ db.nameChanges, ∃ c2 ∈ (saveNameChange db1 nc2).nameChanges, Evolves c c2) := by
  have hlist : (saveNameChange db1 nc2).nameChanges
      = db.nameChanges.map (fun c => if c.id = nc2.id then nc2 else c) := by
    unfold saveNameChange
    dsimp only
    rw [hsame]
  have hnext2 : (saveNameChange db1 nc2).nextId = db.nextId := by
    unfold saveNameChange
    dsimp only
    exact hnext
  have hfid : ∀ c : NameChange, ((fun c => if c.id = nc2.id then nc2 else c) c).id = c.id := by
    intro c
    by_cases h : c.id = nc2.id
    · simp [h]
    · simp [h]
  refine ⟨?_, ?_, ?_⟩
  · intro c hc
    rw [hlist] at hc
    rw [hnext2]
    obtain ⟨c0, hc0, rfl⟩ := List.mem_map.mp hc
    rw [hfid c0]
    exact hb c0 hc0
  · intro a ha b hbm heq
    rw [hlist] at ha hbm
    obtain ⟨a0, ha0, rfl⟩ := List.mem_map.mp ha
    obtain ⟨b0, hb0, rfl⟩ := List.mem_map.mp hbm
    rw [hfid a0, hfid b0] at heq
    rw [hi a0 ha0 b0 hb0 heq]
  · intro c hc
    rw [hlist]
    refine ⟨(fun c => if c.id = nc2.id then nc2 else c) c, List.mem_map_of_mem _ hc, ?_⟩
    show Evolves c (if c.id = nc2.id then nc2 else c)
    by_cases h : c.id = nc2.id
    · have hc0 : c = nc0 := hi c hc nc0 hmem (h.trans hid)
      rw [if_pos h, hc0]
      exact hev
    · rw [if_neg h]
      exact Evolves_refl c

lemma transferData_frame (inj : Nat → Option ApiError) (db : DB) (oldP : Player)
    (newP : Option Player) (newName : String) :
    (transferData inj db oldP newP newName).1.nameChanges = db.nameChanges
    ∧ (transferData inj db oldP newP newName).1.nextId = db.nextId := by
  unfold transferData
  dsimp only
  cases hrun : runTx inj 0 (mergeSteps oldP newP
      ((findLatest db oldP.id).map (fun s => s.createdAt)) (standardize newName)) db with
  | ok db2 =>
    have h2 := runTx_ok_foldl inj _ 0 db db2 hrun
    subst h2
    obtain ⟨ha, hb2, _⟩ := mergeSteps_foldl_frame oldP newP
      ((findLatest db oldP.id).map (fun s => s.createdAt)) (standardize newName) db
    exact ⟨ha, hb2⟩
  | error e => exact ⟨rfl, rfl⟩

lemma approve_of_missingOld (inj : Nat → Option ApiError) (db : DB) (id : Nat) (pw : String)
    (now : Nat) (nc : NameChange)
    (h : db.nameChanges.find? (fun c => c.id == id) = some nc)
    (hst : nc.status = NameChangeStatus.PENDING)
    (hpw : pw = db.adminPassword)
    (hop : find db nc.oldName = none) :
    approve inj db id pw now
      = (db, .error (.serverError "Old Player cannot be found in the database anymore.")) := by
  unfold approve
  rw [h]
  simp only [hst, hpw, ne_eq, not_true_eq_false, if_false, if_neg, not_false_eq_true,
    ite_false]
  rw [hop]

lemma deny_of_success (db : DB) (id : Nat) (pw : String) (nc : NameChange)
    (h : db.nameChanges.find? (fun c => c.id == id) = some nc)
    (hst : nc.status = NameChangeStatus.PENDING)
    (hpw : pw = db.adminPassword) :
    deny db id pw = (saveNameChange db { nc with status := NameChangeStatus.DENIED },
      .ok { nc with status := NameChangeStatus.DENIED }) := by
  unfold deny
  rw [h]
  simp only [hst, hpw, ne_eq, not_true_eq_false, if_false, if_neg, not_false_eq_true,
    ite_false]

lemma approve_of_success (inj : Nat → Option ApiError) (db : DB) (id : Nat) (pw : String)
    (now : Nat) (nc : NameChange) (oldP : Player) (db1 : DB) (u : Unit)
    (h : db.nameChanges.find? (fun c => c.id == id) = some nc)
    (hst : nc.status = NameChangeStatus.PENDING)
    (hpw : pw = db.adminPassword)
    (hop : find db nc.oldName = some oldP)
    (htd : transferData inj db oldP (find db nc.newName) nc.newName = (db1, .ok u)) :
    approve inj db id pw now
      = (saveNameChange db1
          { nc with status := NameChangeStatus.APPROVED, resolvedAt := some now },
        .ok { nc with status := NameChangeStatus.APPROVED, resolvedAt := some now }) := by
  unfold approve
  rw [h]
  simp only [hst, hpw, ne_eq, not_true_eq_false, if_false, if_neg, not_false_eq_true,
    ite_false]
  rw [hop]
  dsimp only
  rw [htd]

lemma applyOp_evolves (db : DB) (op : Op)
    (hb : ∀ c ∈ db.nameChanges, c.id < db.nextId)
    (hi : ∀ a ∈ db.nameChanges, ∀ b ∈ db.nameChanges, a.id = b.id → a = b) :
    (∀ c ∈ (applyOp db op).nameChanges, c.id < (applyOp db op).nextId)
    ∧ (∀ a ∈ (applyOp db op).nameChanges, ∀ b ∈ (applyOp db op).nameChanges,
        a.id = b.id → a = b)
    ∧ (∀ c ∈ db.nameChanges, ∃ c2 ∈ (applyOp db op).nameChanges, Evolves c c2) := by
  have hsame : (∀ c ∈ db.nameChanges, c.id < db.nextId)
      ∧ (∀ a ∈ db.nameChanges, ∀ b ∈ db.nameChanges, a.id = b.id → a = b)
      ∧ (∀ c ∈ db.nameChanges, ∃ c2 ∈ db.nameChanges, Evolves c c2) :=
    ⟨hb, hi, fun c hc => ⟨c, hc, Evolves_refl c⟩⟩
  cases op with
  | submitOp o n =>
    simp only [applyOp]
    rcases hf : find db o with _ | p
    · rw [submit_of_untracked db o n hf]
      exact hsame
    rcases hdup : db.nameChanges.find? (fun nc =>
        nc.oldName == o && nc.newName == n
          && decide (nc.status = NameChangeStatus.PENDING)) with _ | c0
    swap
    · have hc0 := List.mem_of_find?_eq_some hdup
      have hps := List.find?_some hdup
      have hp0 := (submit_pred_iff o n c0).mp hps
      rw [submit_of_duplicate db o n p hf ⟨c0, hc0, hp0⟩]
      exact hsame
    have hnone : ∀ c ∈ db.nameChanges,
        ¬(c.oldName = o ∧ c.newName = n ∧ c.status = NameChangeStatus.PENDING) :=
      fun c hc hp => by
        have := List.find?_eq_none.mp hdup c hc
        exact this ((submit_pred_iff o n c).mpr hp)
    rw [submit_of_fresh db o n p hf hnone]
    dsimp only
    refine ⟨?_, ?_, ?_⟩
    · intro c hc
      rcases List.mem_append.mp hc with h | h
      · exact Nat.lt_succ_of_lt (hb c h)
      · rw [List.mem_singleton] at h
        subst h
        exact Nat.lt_succ_self _
    · intro a ha b hbm heq
      rcases List.mem_append.mp ha with ha | ha <;> rcases List.mem_append.mp hbm with hbm | hbm
      · exact hi a ha b hbm heq
      · rw [List.mem_singleton] at hbm
        subst hbm
        exact absurd (heq ▸ hb a ha) (Nat.lt_irrefl _)
      · rw [List.mem_singleton] at ha
        subst ha
        exact absurd (heq.symm ▸ hb b hbm) (Nat.lt_irrefl _)
      · rw [List.mem_singleton] at ha hbm
        rw [ha, hbm]
    · intro c hc
      exact ⟨c, List.mem_append_left _ hc, Evolves_refl c⟩
  | denyOp id pw =>
    simp only [applyOp]
    rcases hnc : db.nameChanges.find? (fun c => c.id == id) with _ | nc0
    · rw [deny_of_missing db id pw hnc]
      exact hsame
    by_cases hst : nc0.status = NameChangeStatus.PENDING
    swap
    · rw [deny_of_notPending db id pw nc0 hnc hst]
      exact hsame
    by_cases hpw : pw = db.adminPassword
    swap
    · rw [deny_of_badPassword db id pw nc0 hnc hst hpw]
      exact hsame
    rw [deny_of_success db id pw nc0 hnc hst hpw]
    exact saveNameChange_resolution db db nc0 _ rfl rfl hb hi
      (List.mem_of_find?_eq_some hnc) rfl
      ⟨rfl, Or.inr ⟨hst, Or.inr (Or.inr ⟨rfl, rfl⟩)⟩⟩
  | approveOp inj id pw now =>
    simp only [applyOp]
    rcases hnc : db.nameChanges.find? (fun c => c.id == id) with _ | nc0
    · rw [approve_of_missing inj db id pw now hnc]
      exact hsame
    by_cases hst : nc0.status = NameChangeStatus.PENDING
    swap
    · rw [approve_of_notPending inj db id pw now nc0 hnc hst]
      exact hsame
    by_cases hpw : pw = db.adminPassword
    swap
    · rw [approve_of_badPassword inj db id pw now nc0 hnc hst hpw]
      exact hsame
    rcases hop : find db nc0.oldName with _ | oldP
    · rw [approve_of_missingOld inj db id pw now nc0 hnc hst hpw hop]
      exact hsame
    rcases htd : transferData inj db oldP (find db nc0.newName) nc0.newName with ⟨dbt, res⟩
    cases res with
    | error e =>
      have hfail : (transferData inj db oldP (find db nc0.newName) nc0.newName).2
          = .error e := by rw [htd]
      rw [approve_of_mergeFailure inj db id pw now nc0 oldP e hnc hst hpw hop hfail]
      exact hsame
    | ok u =>
      rw [approve_of_success inj db id pw now nc0 oldP dbt u hnc hst hpw hop htd]
      have hfr := transferData_frame inj db oldP (find db nc0.newName) nc0.newName
      rw [htd] at hfr
      dsimp only at hfr
      exact saveNameChange_resolution db dbt nc0 _ hfr.1 hfr.2 hb hi
        (List.mem_of_find?_eq_some hnc) rfl
        ⟨rfl, Or.inr ⟨hst, Or.inr (Or.inl ⟨rfl, rfl⟩)⟩⟩

/-- C7: over every sequence of submit/deny/approve operations on a
well-formed store (request ids unique and below the id counter), every stored
request evolves into exactly one of: itself unchanged; or, only from PENDING,
an APPROVED version with its resolution date set, or a DENIED version with
its resolution date untouched.  A non-PENDING request is frozen, so a status
changes at most once, only away from PENDING, never between or out of the
terminal states, and the resolution date is set only on approval. -/
theorem nameChange_status_machine (db : DB) (ops : List Op)
    (hb : ∀ c ∈ db.nameChanges, c.id < db.nextId)
    (hi : ∀ a ∈ db.nameChanges, ∀ b ∈ db.nameChanges, a.id = b.id → a = b) :
    ∀ c ∈ db.nameChanges, ∃ c2 ∈ (ops.foldl applyOp db).nameChanges, Evolves c c2 := by
  induction ops generalizing db with
  | nil => exact fun c hc => ⟨c, hc, Evolves_refl c⟩
  | cons op ops ih =>
    intro c hc
    obtain ⟨hb1, hi1, hev⟩ := applyOp_evolves db op hb hi
    obtain ⟨c1, hc1, he1⟩ := hev c hc
    obtain ⟨c2, hc2, he2⟩ := ih (applyOp db op) hb1 hi1 c1 hc1
    rw [List.foldl_cons]
    exact ⟨c2, hc2, Evolves_trans c c1 c2 he1 he2⟩

/-- Witness for C7: a concrete pending request followed through a deny, a
submit and an approve attempt. -/
theorem nameChange_status_machine_witness :
    ∃ c2 ∈ (([Op.denyOp 1 "pw", Op.submitOp "a" "c",
        Op.approveOp noInj 1 "pw" 3] : List Op).foldl applyOp exDb7).nameChanges,
      Evolves ⟨1, 1, "a", "b", NameChangeStatus.PENDING, none⟩ c2 :=
  nameChange_status_machine exDb7
    [Op.denyOp 1 "pw", Op.submitOp "a" "c", Op.approveOp noInj 1 "pw" 3]
    (by decide) (by decide) ⟨1, 1, "a", "b", NameChangeStatus.PENDING, none⟩ (by decide)

end NameService
